import Mathlib

/-!
Shallow embedding of the siteforge document-export core
(`src/backend/app/routers/tssr.py`, `src/backend/app/routers/boq.py`,
`src/backend/app/tssr_template_map.py`) and proofs of the spec's
testable properties.
-/

namespace SiteForge

/-! ## Python-style dynamic values

A TSSR record field holds a string, a boolean, an integer, or `None`.
`pyTruthy` mirrors Python truthiness; `pyStr` mirrors `str(...)`. -/

inductive Value where
  | str (s : String)
  | bool (b : Bool)
  | int (n : Int)
  | none
  deriving DecidableEq, Repr

def pyTruthy : Value → Bool
  | .str s => s ≠ ""
  | .bool b => b
  | .int n => n ≠ 0
  | .none => false

def pyStr : Value → String
  | .str s => s
  | .bool true => "True"
  | .bool false => "False"
  | .int n => toString n
  | .none => "None"

/-- `s.rstrip(cs)`: remove trailing characters belonging to `cs`. -/
def pyRstrip (s : String) (cs : List Char) : String :=
  ⟨(s.data.reverse.dropWhile (cs.contains ·)).reverse⟩

/-! ## FieldMap entries (`tssr_template_map.TEMPLATE_MAP` entry shape)

Each entry is a dict; `type_` is `"text" | "combobox" | "dropdown" |
"plain_cell"`.  `.get` with defaults is modelled by optional fields. -/

structure Entry where
  type_ : String
  tag : String := ""
  db_field : String
  condition_field : Option String := Option.none
  pfx : String := ""
  table : Nat := 0
  row : Nat := 0
  col : Nat := 0
  deriving DecidableEq, Repr

/-- A record is a total map from field name to value; `getattr` with a
default merges the missing-attribute case into the map itself. -/
def Record := String → Value

/-- Lines 226–231 of `tssr.py`: resolve the source field, then force the
value to `""` when a condition field is present and falsy. -/
def resolveValue (rec : Record) (e : Entry) : Value :=
  match e.condition_field with
  | Option.some c => if pyTruthy (rec c) then rec e.db_field else .str ""
  | Option.none => rec e.db_field

/-- Lines 234–239 of `tssr.py`: the prefixed `text_value` (used only for
`plain_cell` entries). -/
def textValue (rec : Record) (e : Entry) : String :=
  let v := resolveValue rec e
  if pyTruthy v then e.pfx ++ pyStr v
  else if e.pfx ≠ "" then pyRstrip e.pfx [':', ' '] ++ ":" else ""

/-- Line 248 of `tssr.py`: the string passed to `_set_sdt_value` for
tag-kind entries (`str(value) if value else ""`) — note the prefix is
not applied here. -/
def sdtWrittenText (rec : Record) (e : Entry) : String :=
  let v := resolveValue rec e
  if pyTruthy v then pyStr v else ""

/-- The tag-kind control types dispatched to the SDT branch. -/
def tagKinds : List String := ["text", "combobox", "dropdown"]

/-! ## Output filenames -/

/-- Python `f"{n:02d}"` for a natural number. -/
def pad2 (n : Nat) : String :=
  if n < 10 then "0" ++ toString n else toString n

/-- `_export_legacy` lines 274–279. -/
def tssrLegacyFilename (siteId : String) (asBuilt : Bool) (ver : Nat) : String :=
  if asBuilt then siteId ++ "_TSSR_AsBuilt_v" ++ pad2 ver ++ ".docx"
  else "TSSR_" ++ siteId ++ ".docx"

/-- `_export_modern` lines 183–188. -/
def tssrModernFilename (siteId : String) (asBuilt : Bool) (ver : Nat) : String :=
  if asBuilt then siteId ++ "_TSSR_AsBuilt_v" ++ pad2 ver ++ ".docx"
  else "TSSR_" ++ siteId ++ "_modern.docx"

/-- `export_boq` lines 267–274. -/
def boqFilename (siteId : String) (asBuilt : Bool) (ver : Nat) (ext : String) : String :=
  if asBuilt then siteId ++ "_BOQ_AsBuilt_v" ++ pad2 ver ++ "." ++ ext
  else "BoQ_" ++ siteId ++ "." ++ ext

/-- The spec's filename pattern `<identifier>_<DocumentKind>[_AsBuilt_v<NN>].<ext>`. -/
def followsPattern (ident kind : String) (asBuilt : Bool) (ver : Nat)
    (ext fn : String) : Prop :=
  fn = ident ++ "_" ++ kind ++ (if asBuilt then "_AsBuilt_v" ++ pad2 ver else "")
    ++ "." ++ ext

instance (ident kind : String) (asBuilt : Bool) (ver : Nat) (ext fn : String) :
    Decidable (followsPattern ident kind asBuilt ver ext fn) := by
  unfold followsPattern; infer_instance

/-! ## Structured document tags (`_set_sdt_value`, lines 547–593)

The relevant XML shape: an `w:sdt` has an optional `w:sdtContent`,
whose children are runs (`w:r`), paragraphs (`w:p`), or other nodes.
A run carries run properties (`w:rPr`, never touched by the patcher)
and children, among which `w:t` nodes carry the visible text. -/

structure RunProps where
  bold : Option Bool := Option.none
  italic : Option Bool := Option.none
  size : Option Nat := Option.none
  family : Option String := Option.none
  color : Option String := Option.none
  deriving DecidableEq, Repr

/-- A run child: a `w:t` text node, or any other node (`w:br`, …),
which carries no visible text. -/
inductive RNode where
  | t (s : String)
  | other
  deriving DecidableEq, Repr

structure Run where
  rPr : RunProps := {}
  children : List RNode := []
  deriving DecidableEq, Repr

/-- A paragraph child: a run or any other node (`w:pPr`, …). -/
inductive PNode where
  | run (r : Run)
  | other
  deriving DecidableEq, Repr

structure Para where
  children : List PNode := []
  deriving DecidableEq, Repr

/-- A child of `w:sdtContent`. -/
inductive CNode where
  | run (r : Run)
  | para (p : Para)
  | other
  deriving DecidableEq, Repr

structure SdtContent where
  children : List CNode := []
  deriving DecidableEq, Repr

/-- A `w:sdt` element: `find(w:sdtContent)` may fail. -/
structure Sdt where
  content : Option SdtContent := Option.none
  deriving DecidableEq, Repr

def RNode.tText : RNode → Option String
  | .t s => Option.some s
  | .other => Option.none

/-- Concatenation of a list of strings. -/
def concatAll : List String → String
  | [] => ""
  | s :: rest => s ++ concatAll rest

/-- Visible text of a run: concatenation of its `w:t` children. -/
def Run.text (r : Run) : String :=
  concatAll (r.children.filterMap RNode.tText)

def PNode.runOf : PNode → Option Run
  | .run r => Option.some r
  | .other => Option.none

/-- `para.findall(qn("w:r"))`: direct run children of a paragraph. -/
def Para.runs (p : Para) : List Run :=
  p.children.filterMap PNode.runOf

def Para.text (p : Para) : String :=
  concatAll (p.runs.map Run.text)

def CNode.runOf : CNode → Option Run
  | .run r => Option.some r
  | _ => Option.none

def CNode.paraOf : CNode → Option Para
  | .para p => Option.some p
  | _ => Option.none

/-- `content.findall(qn("w:r"))`: direct run children of the content. -/
def SdtContent.runs (c : SdtContent) : List Run :=
  c.children.filterMap CNode.runOf

def CNode.text : CNode → String
  | .run r => r.text
  | .para p => p.text
  | .other => ""

/-- The visible text of an SDT content, in document order. -/
def SdtContent.text (c : SdtContent) : String :=
  concatAll (c.children.map CNode.text)

def Sdt.text (s : Sdt) : String :=
  match s.content with
  | Option.some c => c.text
  | Option.none => ""

/-- First run of the content in document order (direct or inside a
paragraph). -/
def SdtContent.firstRun (c : SdtContent) : Option Run :=
  c.children.findSome? fun n =>
    match n with
    | .run r => Option.some r
    | .para p => p.runs.head?
    | .other => Option.none

def Sdt.firstRun (s : Sdt) : Option Run :=
  match s.content with
  | Option.some c => c.firstRun
  | Option.none => Option.none

/-- `first_run.find(qn("w:t"))` + text assignment: replace the first
`w:t` child's text; if no `w:t` child exists, append a fresh one at the
end (`first_run.append(t_el)`). -/
def setFirstT (v : String) : List RNode → List RNode
  | [] => [.t v]
  | .t _ :: rest => .t v :: rest
  | .other :: rest => .other :: setFirstT v rest

def Run.setText (r : Run) (v : String) : Run :=
  { r with children := setFirstT v r.children }

/-- Patch a list of paragraph children: the first run gets the new text,
later runs are removed (`para.remove(run)`), non-run nodes stay. -/
def patchPNodes (v : String) (seen : Bool) : List PNode → List PNode
  | [] => []
  | .run r :: rest =>
      if seen then patchPNodes v true rest
      else .run (r.setText v) :: patchPNodes v true rest
  | .other :: rest => .other :: patchPNodes v seen rest

/-- Patch a list of content children (case 1 of `_set_sdt_value`):
first direct run rewritten, later direct runs removed, every other
node — paragraphs included — left in place. -/
def patchCNodes (v : String) (seen : Bool) : List CNode → List CNode
  | [] => []
  | .run r :: rest =>
      if seen then patchCNodes v true rest
      else .run (r.setText v) :: patchCNodes v true rest
  | .para p :: rest => .para p :: patchCNodes v seen rest
  | .other :: rest => .other :: patchCNodes v seen rest

/-- Case 2 of `_set_sdt_value` applied to one paragraph: patch its runs,
or append a fresh default-styled run when it has none. -/
def patchPara (v : String) (p : Para) : Para :=
  if p.runs.isEmpty then { children := p.children ++ [.run { rPr := {}, children := [.t v] }] }
  else { children := patchPNodes v false p.children }

/-- `content.find(qn("w:p"))`: only the first paragraph child is
patched; without one the call is a no-op. -/
def patchFirstPara (v : String) : List CNode → List CNode
  | [] => []
  | .para p :: rest => .para (patchPara v p) :: rest
  | n :: rest => n :: patchFirstPara v rest

/-- `_set_sdt_value(sdt, value)`, lines 547–593. -/
def setSdtValue (s : Sdt) (v : String) : Sdt :=
  match s.content with
  | Option.none => s
  | Option.some c =>
      if c.runs.isEmpty then { content := Option.some { children := patchFirstPara v c.children } }
      else { content := Option.some { children := patchCNodes v false c.children } }

/-! ## Annotation compositor (`_render_annotations`, lines 332–406) -/

structure Point where
  x : ℚ
  y : ℚ
  deriving DecidableEq, Repr

abbrev Color := Nat × Nat × Nat

/-- The fixed named palette (`color_map`, lines 345–351). -/
def colorMap : List (String × Color) :=
  [("red", (255, 0, 0)), ("yellow", (255, 255, 0)), ("blue", (0, 100, 255)),
   ("white", (255, 255, 255)), ("black", (0, 0, 0))]

/-- `color_map.get(name, (255, 0, 0))`. -/
def resolveColor (name : String) : Color :=
  (colorMap.lookup name).getD (255, 0, 0)

/-- An annotation primitive as stored: a JSON dict read with
`.get` defaults (`type`, `color` default `"red"`, `points`, `label`,
`measureDistance`). -/
structure Ann where
  type_ : String := ""
  color : String := "red"
  points : List Point := []
  label : String := ""
  measureDistance : String := ""
  deriving DecidableEq, Repr

/-- One Pillow drawing call with its determining arguments.  The two
arrowhead segments involve float trigonometry (`atan2`/`cos`/`sin`);
the command records the call's inputs — tip, segment start, the fixed
angular offset (±2.5 rad) and head length (15) — instead of the
computed endpoint. -/
inductive Cmd where
  | line (p q : Point) (c : Color) (w : Nat)
  | arrowHead (tip tail : Point) (offset : ℚ) (headLen : ℚ) (c : Color) (w : Nat)
  | rect (p q : Point) (c : Color) (w : Nat)
  | ellipse (p q : Point) (c : Color) (w : Nat)
  | text (at_ : Point) (s : String) (c : Color)
  deriving DecidableEq, Repr

/-- The drawing calls one annotation produces (the `elif` chain of
lines 353–401); an unrecognized kind or a too-short point list
produces none. -/
def annCmds (a : Ann) : List Cmd :=
  let c := resolveColor a.color
  match a.type_, a.points with
  | "arrow", p0 :: p1 :: _ =>
      [.line p0 p1 c 3, .arrowHead p1 p0 (5/2) 15 c 3, .arrowHead p1 p0 (-(5/2)) 15 c 3]
  | "line", p0 :: p1 :: _ => [.line p0 p1 c 3]
  | "rectangle", p0 :: p1 :: _ => [.rect p0 p1 c 3]
  | "circle", p0 :: p1 :: _ => [.ellipse p0 p1 c 3]
  | "text", p0 :: _ => if a.label ≠ "" then [.text p0 a.label c] else []
  | "measure", p0 :: p1 :: _ =>
      .line p0 p1 c 3 ::
        (if a.measureDistance ≠ "" then
          [.text ⟨(p0.x + p1.x) / 2, (p0.y + p1.y) / 2 - 12⟩ (a.measureDistance ++ "m") c]
        else [])
  | _, _ => []

/-- All drawing calls of an annotation list, in order. -/
def renderCmds (anns : List Ann) : List Cmd :=
  (anns.map annCmds).flatten

/-- `_render_annotations`: open + RGB-convert the source (already done
in `img`), draw each primitive in order, encode as JPEG quality 90.
The raster semantics of a single call and the JPEG encoder are opaque;
the pipeline is parametric in both. -/
def renderAnnotations {Img Buf : Type} (applyCmd : Img → Cmd → Img)
    (encodeJPEG : Img → Buf) (img : Img) (anns : List Ann) : Buf :=
  encodeJPEG ((renderCmds anns).foldl applyCmd img)

/-- The recognized primitive kinds. -/
def recognizedKinds : List String :=
  ["arrow", "line", "rectangle", "circle", "text", "measure"]

/-- Points each kind requires (2, except 1 for text). -/
def requiredPoints (k : String) : Nat :=
  if k = "text" then 1 else 2

/-- An annotation the compositor skips entirely. -/
def skippedAnn (a : Ann) : Bool :=
  !(recognizedKinds.contains a.type_) || a.points.length < requiredPoints a.type_

/-! ## Photo appendix (`_insert_photos_into_doc`, lines 457–513) -/

def PHOTO_SECTION_LABELS : List (String × String) :=
  [("site_overview", "§1 — Site Overview"),
   ("delivery_access", "§1.1 — Delivery & Access"),
   ("hse_illustration", "§1.2 — HSE Illustration"),
   ("cable_route", "§3.5 — Cable Route"),
   ("power_diagram", "§3.6 — Power Diagram"),
   ("radio_plan_screenshot", "§4.3 — Radio Plan Screenshot"),
   ("effekt_screenshot", "§4.3 — Effekt Screenshot"),
   ("antenna_azimuth", "§5.1 — Antenna Azimuth"),
   ("antenna_placement", "§5.2 — Antenna Placement"),
   ("equipment_room", "§5.3 — Equipment Room"),
   ("site_plan", "§5.4 — Site Plan"),
   ("structural_calc", "§5.5 — Structural Calculation"),
   ("building_photos", "Appendix — Building Photos"),
   ("detail_photos", "Appendix — Detail Photos"),
   ("other", "Other Photos")]

def PHOTO_SECTION_ORDER : List String :=
  ["site_overview", "delivery_access", "hse_illustration", "cable_route",
   "power_diagram", "radio_plan_screenshot", "effekt_screenshot",
   "antenna_azimuth", "antenna_placement", "equipment_room", "site_plan",
   "structural_calc", "building_photos", "detail_photos", "other"]

/-- A `ProjectPhoto` row together with the filesystem/codec behaviour
its file exhibits during this export: `fileExists` is
`file_path.exists()`, `renderOk` whether the try-block
(`_render_annotations` + `add_picture` of the buffer) succeeds, and
`embedOriginalOk` whether `doc.add_picture(str(file_path))` succeeds. -/
structure Photo where
  name : String := ""
  sectionField : String := ""
  annotations : List Ann := []
  autoFilename : String := ""
  originalFilename : String := ""
  caption : String := ""
  fileExists : Bool := true
  renderOk : Bool := true
  embedOriginalOk : Bool := true
  deriving DecidableEq, Repr

/-- `photo.section or "other"`. -/
def normSection (p : Photo) : String :=
  if p.sectionField = "" then "other" else p.sectionField

/-- `PHOTO_SECTION_LABELS.get(section_key, section_key)`. -/
def sectionLabel (k : String) : String :=
  ((PHOTO_SECTION_LABELS.lookup k).getD k)

/-- Caption text: `auto_filename or original_filename`, plus the user
caption when present. -/
def captionText (p : Photo) : String :=
  (if p.autoFilename ≠ "" then p.autoFilename else p.originalFilename)
    ++ (if p.caption ≠ "" then " — " ++ p.caption else "")

/-- Content appended to the document, in order. -/
inductive DocItem where
  | pageBreak
  | heading (level : Nat) (s : String)
  | picture (p : Photo) (annotated : Bool)
  | caption (s : String)
  | paragraph (s : String)
  deriving DecidableEq, Repr

/-- One photo of the appendix loop (lines 482–513).  An uncaught
exception — the unguarded fallback `add_picture` for an annotated
photo — aborts the whole insertion (`Except.error`). -/
def processPhoto (p : Photo) : Except String (List DocItem) :=
  if !p.fileExists then .ok []
  else if !p.annotations.isEmpty then
    if p.renderOk then .ok [.picture p true, .caption (captionText p)]
    else if p.embedOriginalOk then .ok [.picture p false, .caption (captionText p)]
    else .error ("add_picture failed for " ++ p.originalFilename)
  else
    if p.embedOriginalOk then .ok [.picture p false, .caption (captionText p)]
    else .ok []

def processPhotos : List Photo → Except String (List DocItem)
  | [] => .ok []
  | p :: rest => do
      let xs ← processPhoto p
      let ys ← processPhotos rest
      .ok (xs ++ ys)

/-- One section of the appendix: the section's photos in input order
(the `setdefault`-append grouping preserves it), headed by its label;
an empty group produces nothing. -/
def processSection (photos : List Photo) (k : String) : Except String (List DocItem) :=
  if (photos.filter (fun p => normSection p = k)).isEmpty then .ok []
  else do
    let xs ← processPhotos (photos.filter (fun p => normSection p = k))
    .ok (.heading 2 (sectionLabel k) :: xs)

def processAllSections (photos : List Photo) : List String → Except String (List DocItem)
  | [] => .ok []
  | k :: ks => do
      let xs ← processSection photos k
      let ys ← processAllSections photos ks
      .ok (xs ++ ys)

/-- `_insert_photos_into_doc`: page break, main heading, then the
sections in `PHOTO_SECTION_ORDER`. -/
def insertPhotosIntoDoc (photos : List Photo) : Except String (List DocItem) := do
  let xs ← processAllSections photos PHOTO_SECTION_ORDER
  .ok (.pageBreak :: .heading 1 "Photo Documentation" :: xs)

/-! ## BOQ spreadsheet export (`export_boq`, `boq.py` lines 173–281)

A workbook is a total map from `(sheet, row, column)` to an optional
cell value; writing a quantity never involves arithmetic, so
quantities are carried as exact rationals. -/

inductive CVal where
  | num (q : ℚ)
  | str (s : String)
  deriving DecidableEq, Repr

def Wb := String × Nat × Nat → Option CVal

/-- `ws.cell(row, column, value)` with a non-`None` value. -/
def setCell (wb : Wb) (sheet : String) (row col : Nat) (v : CVal) : Wb :=
  fun k => if k = (sheet, row, col) then Option.some v else wb k

/-- `ws.cell(row, column, value)`: openpyxl only assigns when the
value is not `None`. -/
def setCellOpt (wb : Wb) (sheet : String) (row col : Nat) : Option CVal → Wb
  | Option.some v => setCell wb sheet row col v
  | Option.none => wb

def DATA_SHEETS : List String := ["BoQ", "BoM Griptel", "BoM Solar"]

/-- `qty_map`: `(sheet_name, row_index) → quantity` (a dict, so keys
are pairwise distinct). -/
abbrev QtyMap := List ((String × Nat) × ℚ)

/-- `act_map`: `(sheet_name, row_index) → (actual qty, actual
comment)`; the comment is written only when truthy. -/
abbrev ActMap := List ((String × Nat) × (Option ℚ × String))

structure BoqProject where
  siteId : Option String := Option.none
  siteName : Option String := Option.none

/-- One `qty_map` entry (lines 240–242): write the quantity into
column D at the anchored row when the sheet matches and the quantity
is positive. -/
def qtyStep (sheet : String) (w : Wb) (e : (String × Nat) × ℚ) : Wb :=
  if e.1.1 = sheet ∧ 0 < e.2 then setCell w sheet e.1.2 4 (.num e.2) else w

/-- One `act_map` entry (lines 245–250): actual quantity into column
F when present, actual comment into column G when truthy. -/
def actStep (sheet : String) (w : Wb) (e : (String × Nat) × (Option ℚ × String)) : Wb :=
  if e.1.1 = sheet then
    let w' := match e.2.1 with
      | Option.some x => setCell w sheet e.1.2 6 (.num x)
      | Option.none => w
    if e.2.2 ≠ "" then setCell w' sheet e.1.2 7 (.str e.2.2) else w'
  else w

/-- The loop body for one allowed sheet (lines 233–250): header
metadata into column C, quantities > 0 into column D, actuals into
columns F and G. -/
def fillSheet (qm : QtyMap) (am : ActMap) (proj : BoqProject) (sheet : String)
    (wb : Wb) : Wb :=
  let wb := setCellOpt wb sheet 4 3 (proj.siteId.map CVal.str)
  let wb := setCellOpt wb sheet 5 3 (proj.siteName.map CVal.str)
  let wb := qm.foldl (qtyStep sheet) wb
  am.foldl (actStep sheet) wb

/-- One sheet of the workbook iteration (lines 230–232). -/
def sheetStep (qm : QtyMap) (am : ActMap) (proj : BoqProject) (w : Wb)
    (sheet : String) : Wb :=
  if sheet ∈ DATA_SHEETS then fillSheet qm am proj sheet w else w

/-- Lines 230–250: every sheet of the workbook, restricted to the
allowed data sheets. -/
def exportBoqWb (sheetnames : List String) (qm : QtyMap) (am : ActMap)
    (proj : BoqProject) (wb0 : Wb) : Wb :=
  sheetnames.foldl (sheetStep qm am proj) wb0

/-! ## TSSR export flow (`export_tssr`, lines 72–136, and the template
check of `_export_legacy`, lines 204–209) -/

structure ProjectState where
  asBuiltTssrVersion : Nat := 0
  deriving DecidableEq, Repr

/-- The endpoint after photo gathering: when `as_built` is requested
the version counter is incremented and committed, then the export is
dispatched; the legacy path fails fatally when the template file is
missing.  Returns the persisted state together with the outcome (the
computed filename on success). -/
def exportTssr (proj : ProjectState) (fmt : String) (asBuilt : Bool)
    (templateExists : Bool) (siteId : String) : ProjectState × Except String String :=
  let proj' := if asBuilt then
    { proj with asBuiltTssrVersion := proj.asBuiltTssrVersion + 1 } else proj
  if fmt = "modern" then
    (proj', .ok (tssrModernFilename siteId asBuilt proj'.asBuiltTssrVersion))
  else if templateExists then
    (proj', .ok (tssrLegacyFilename siteId asBuilt proj'.asBuiltTssrVersion))
  else
    (proj', .error "TSSR template not found")

/-! ## Canonical SDT layouts

The patcher's docstring names the two supported layouts:
`sdtContent > w:r` and `sdtContent > w:p > w:r`.  A run is *simple*
when it carries at most one `w:t` node. -/

/-- A run holding at most one `w:t` child. -/
def runSimple (r : Run) : Bool :=
  (r.children.filterMap RNode.tText).length ≤ 1

def PNode.isSimpleRun : PNode → Bool
  | .run r => runSimple r
  | .other => false

def CNode.isSimpleRun : CNode → Bool
  | .run r => runSimple r
  | _ => false

/-- Content in one of the two supported layouts with at least one run:
either all children are simple runs, or the only child is a paragraph
whose children are all simple runs. -/
def canonicalContent (c : SdtContent) : Bool :=
  (!c.children.isEmpty && c.children.all CNode.isSimpleRun)
  || (match c.children with
      | [CNode.para p] => !p.children.isEmpty && p.children.all PNode.isSimpleRun
      | _ => false)

/-! ## Theorems -/

/-- C1: for every FieldMap entry of tag kind whose condition field
resolves to a falsy value on the input record, the string written into
every matching content control (the loop passes it to `_set_sdt_value`
for each control of the tag's bucket) is the empty string, whatever
the source field holds. -/
theorem c1_tag_condition_falsy_writes_empty (rec : Record) (e : Entry) (c : String)
    (_h1 : e.type_ ∈ tagKinds) (h2 : e.condition_field = Option.some c)
    (h3 : pyTruthy (rec c) = false) :
    sdtWrittenText rec e = "" ∧
    ∀ sdts : List Sdt,
      sdts.map (fun s => setSdtValue s (sdtWrittenText rec e))
        = sdts.map (fun s => setSdtValue s "") := by
  have hv : resolveValue rec e = .str "" := by
    simp [resolveValue, h2, h3]
  have hw : sdtWrittenText rec e = "" := by
    simp [sdtWrittenText, hv, pyTruthy]
  exact ⟨hw, fun sdts => by rw [hw]⟩

/-- Witness for C1: the iLOQ-details entry gated on a false
`iloq_required`, with the source field holding `"X"`. -/
theorem c1_witness :
    sdtWrittenText (fun f => if f = "iloq_required" then Value.bool false else Value.str "X")
      { type_ := "text", tag := "iLOQDetails", db_field := "iloq_details",
        condition_field := Option.some "iloq_required" } = "" ∧
    [Sdt.mk Option.none].map (fun s => setSdtValue s
        (sdtWrittenText
          (fun f => if f = "iloq_required" then Value.bool false else Value.str "X")
          { type_ := "text", tag := "iLOQDetails", db_field := "iloq_details",
            condition_field := Option.some "iloq_required" }))
      = [Sdt.mk Option.none].map (fun s => setSdtValue s "") := by
  have h := c1_tag_condition_falsy_writes_empty
    (fun f => if f = "iloq_required" then Value.bool false else Value.str "X")
    { type_ := "text", tag := "iLOQDetails", db_field := "iloq_details",
      condition_field := Option.some "iloq_required" }
    "iloq_required" (by decide) rfl (by decide)
  exact ⟨h.1, h.2 [Sdt.mk Option.none]⟩

/-- C3 counterexample: a tag-kind entry declaring a prefix.  The code
passes the bare value to `_set_sdt_value` (`str(value) if value else
""`), not the prefixed `text_value`, so the written text is `"Acme"`,
not `"Site Owner: Acme"` as the claim requires. -/
theorem c3_counterexample :
    sdtWrittenText (fun _ => Value.str "Acme")
        { type_ := "text", tag := "SiteOwner", db_field := "site_owner",
          pfx := "Site Owner: " } = "Acme" ∧
    sdtWrittenText (fun _ => Value.str "Acme")
        { type_ := "text", tag := "SiteOwner", db_field := "site_owner",
          pfx := "Site Owner: " } ≠ "Site Owner: " ++ "Acme" := by
  constructor
  · rfl
  · decide

/-- C3 amended: the prefix semantics the claim describes hold for the
`text_value` used by positional-cell entries — prefix prepended when
the resolved value is truthy, prefix with trailing `": "` characters
stripped and a colon restored when it is falsy — while tag-kind
entries ignore the prefix entirely (the string written to a control
does not depend on it). -/
theorem c3_amended_prefix_only_for_cells (rec : Record) (e : Entry) :
    (pyTruthy (resolveValue rec e) = true →
      textValue rec e = e.pfx ++ pyStr (resolveValue rec e)) ∧
    (pyTruthy (resolveValue rec e) = false → e.pfx ≠ "" →
      textValue rec e = pyRstrip e.pfx [':', ' '] ++ ":") ∧
    (∀ p : String, sdtWrittenText rec { e with pfx := p } = sdtWrittenText rec e) := by
  refine ⟨fun h => ?_, fun h hp => ?_, fun p => ?_⟩
  · simp [textValue, h]
  · simp [textValue, h, hp]
  · simp [sdtWrittenText, resolveValue]

/-- Witness for C3 amended: the Site Owner plain cell with a non-empty
and an empty value, and prefix-independence of the SDT string. -/
theorem c3_amended_witness :
    textValue (fun _ => Value.str "Acme")
        { type_ := "plain_cell", db_field := "site_owner", pfx := "Site Owner: " }
      = "Site Owner: " ++ "Acme" ∧
    textValue (fun _ => Value.str "")
        { type_ := "plain_cell", db_field := "site_owner", pfx := "Site Owner: " }
      = "Site Owner" ++ ":" ∧
    sdtWrittenText (fun _ => Value.str "Acme")
        { type_ := "text", db_field := "site_owner", pfx := "Q" }
      = sdtWrittenText (fun _ => Value.str "Acme")
        { type_ := "text", db_field := "site_owner" } := by
  refine ⟨?_, ?_, ?_⟩
  · exact (c3_amended_prefix_only_for_cells (fun _ => Value.str "Acme")
      { type_ := "plain_cell", db_field := "site_owner", pfx := "Site Owner: " }).1
      (by decide)
  · exact (c3_amended_prefix_only_for_cells (fun _ => Value.str "")
      { type_ := "plain_cell", db_field := "site_owner", pfx := "Site Owner: " }).2.1
      (by decide) (by decide)
  · exact (c3_amended_prefix_only_for_cells (fun _ => Value.str "Acme")
      { type_ := "text", db_field := "site_owner" }).2.2 "Q"

/-- C9 counterexample: the non-as-built legacy TSSR export produces
`TSSR_S7.docx` — document kind first — which does not follow the
claimed `<identifier>_<DocumentKind>.<ext>` pattern. -/
theorem c9_counterexample :
    tssrLegacyFilename "S7" false 0 = "TSSR_S7.docx" ∧
    ¬ followsPattern "S7" "TSSR" false 0 "docx" (tssrLegacyFilename "S7" false 0) := by
  constructor
  · rfl
  · decide

/-- C9 amended: as-built filenames (word-processing and spreadsheet)
follow `<identifier>_<DocumentKind>_AsBuilt_v<NN>.<ext>` with `NN`
zero-padded to two digits, while non-as-built filenames place the
document kind first: `TSSR_<id>.docx`, `TSSR_<id>_modern.docx`,
`BoQ_<id>.<ext>`. -/
theorem c9_amended_filenames (siteId : String) (ver : Nat) (ext : String) :
    followsPattern siteId "TSSR" true ver "docx" (tssrLegacyFilename siteId true ver) ∧
    followsPattern siteId "TSSR" true ver "docx" (tssrModernFilename siteId true ver) ∧
    followsPattern siteId "BOQ" true ver ext (boqFilename siteId true ver ext) ∧
    tssrLegacyFilename siteId false ver = "TSSR_" ++ siteId ++ ".docx" ∧
    tssrModernFilename siteId false ver = "TSSR_" ++ siteId ++ "_modern.docx" ∧
    boqFilename siteId false ver ext = "BoQ_" ++ siteId ++ "." ++ ext := by
  refine ⟨?_, ?_, ?_, rfl, rfl, rfl⟩ <;>
    · show _ = _
      simp only [followsPattern, tssrLegacyFilename, tssrModernFilename, boqFilename,
        if_true, String.append_assoc]
      rfl

/-- C10: in the as-built legacy export, the version counter is
incremented and committed before the template file is opened, so a
missing template yields a fatal error while the persisted counter has
already advanced by one. -/
theorem c10_counter_incremented_on_missing_template (proj : ProjectState)
    (fmt siteId : String) (h : fmt ≠ "modern") :
    (exportTssr proj fmt true false siteId).2 = Except.error "TSSR template not found" ∧
    (exportTssr proj fmt true false siteId).1.asBuiltTssrVersion
      = proj.asBuiltTssrVersion + 1 := by
  simp [exportTssr, h]

/-- Witness for C10: a fresh project exported as-built in legacy format
with the template missing. -/
theorem c10_witness :
    (exportTssr { asBuiltTssrVersion := 0 } "legacy" true false "S7").2
      = Except.error "TSSR template not found" ∧
    (exportTssr { asBuiltTssrVersion := 0 } "legacy" true false "S7").1.asBuiltTssrVersion
      = 1 :=
  c10_counter_incremented_on_missing_template { asBuiltTssrVersion := 0 } "legacy" "S7"
    (by decide)

/-- Skipped annotations produce no drawing call. -/
theorem annCmds_eq_nil_of_skipped (a : Ann) (h : skippedAnn a = true) :
    annCmds a = [] := by
  unfold annCmds
  split <;> simp_all [skippedAnn, recognizedKinds, requiredPoints] <;> omega

/-- C7: an annotation of unrecognized kind, or with fewer points than
its kind requires, is skipped without affecting the drawing calls of
the surrounding annotations; a color name outside the palette resolves
to the default red. -/
theorem c7_compositor_skips_malformed :
    (∀ (pre post : List Ann) (a : Ann), skippedAnn a = true →
      renderCmds (pre ++ a :: post) = renderCmds (pre ++ post)) ∧
    (∀ name : String, colorMap.lookup name = Option.none →
      resolveColor name = (255, 0, 0)) := by
  constructor
  · intro pre post a h
    simp [renderCmds, annCmds_eq_nil_of_skipped a h]
  · intro name h
    simp [resolveColor, h]

/-- Witness for C7: an unrecognized `"blob"` primitive between none
and a well-formed line, and an off-palette color name. -/
theorem c7_witness :
    skippedAnn { type_ := "blob", points := [⟨1, 2⟩] } = true ∧
    renderCmds [{ type_ := "blob", points := [⟨1, 2⟩] },
                { type_ := "line", points := [⟨0, 0⟩, ⟨3, 4⟩] }]
      = renderCmds [{ type_ := "line", points := [⟨0, 0⟩, ⟨3, 4⟩] }] ∧
    colorMap.lookup "chartreuse" = Option.none ∧
    resolveColor "chartreuse" = (255, 0, 0) :=
  ⟨by decide,
   c7_compositor_skips_malformed.1 [] [{ type_ := "line", points := [⟨0, 0⟩, ⟨3, 4⟩] }]
     { type_ := "blob", points := [⟨1, 2⟩] } (by decide),
   by decide,
   c7_compositor_skips_malformed.2 "chartreuse" (by decide)⟩

/-- C8: compositing with a single empty-label Text primitive issues no
drawing call, so the output buffer is byte-identical to the output of
the unannotated pipeline (the source raster is left untouched), for
every raster semantics and every encoder. -/
theorem c8_empty_text_byte_identical {Img Buf : Type} (applyCmd : Img → Cmd → Img)
    (encodeJPEG : Img → Buf) (img : Img) (pts : List Point) (col : String) :
    renderAnnotations applyCmd encodeJPEG img
        [{ type_ := "text", color := col, points := pts, label := "" }]
      = renderAnnotations applyCmd encodeJPEG img []
    ∧ (renderCmds [{ type_ := "text", color := col, points := pts, label := "" }]).foldl
        applyCmd img = img := by
  have h : annCmds { type_ := "text", color := col, points := pts, label := "" } = [] := by
    cases pts <;> simp [annCmds]
  exact ⟨by simp [renderAnnotations, renderCmds, h], by simp [renderCmds, h]⟩

/-- C5 (code bug): an annotated photo whose file is unreadable as an
image (both annotation rendering and the unguarded fallback embed
fail) raises out of the loop and aborts the whole export: the
following photo is never processed, contradicting the claim that a
photo failure is contained to its single item. -/
theorem c5_bad_annotated_photo_aborts_export :
    insertPhotosIntoDoc
      [{ name := "good-before", sectionField := "site_overview",
         originalFilename := "a.jpg" },
       { name := "bad", sectionField := "site_overview",
         originalFilename := "corrupt.jpg",
         annotations := [{ type_ := "arrow", points := [⟨0, 0⟩, ⟨10, 0⟩] }],
         renderOk := false, embedOriginalOk := false },
       { name := "good-after", sectionField := "other",
         originalFilename := "b.jpg" }]
      = Except.error "add_picture failed for corrupt.jpg" := by
  rfl

/-- Setting the text of a simple run (at most one `w:t` child) makes
its visible text exactly the supplied string. -/
theorem setFirstT_text (v : String) (l : List RNode)
    (h : (l.filterMap RNode.tText).length ≤ 1) :
    concatAll ((setFirstT v l).filterMap RNode.tText) = v := by
  induction l with
  | nil => simp [setFirstT, RNode.tText, concatAll, String.append_empty]
  | cons hd tl ih =>
    cases hd with
    | t s =>
      simp only [List.filterMap_cons, RNode.tText] at h
      have htl : tl.filterMap RNode.tText = [] := by
        cases h' : tl.filterMap RNode.tText with
        | nil => rfl
        | cons a b => rw [h'] at h; simp at h
      simp [setFirstT, RNode.tText, htl, concatAll, String.append_empty]
    | other =>
      simp only [List.filterMap_cons, RNode.tText] at h
      simpa [setFirstT, RNode.tText] using ih h

theorem runText_setText (r : Run) (v : String) (h : runSimple r = true) :
    (r.setText v).text = v := by
  simp only [runSimple, decide_eq_true_eq] at h
  simpa [Run.setText, Run.text] using setFirstT_text v r.children h

/-- Once a run has been kept, every remaining simple-run child is
removed. -/
theorem patchCNodes_seen_allRuns (v : String) (l : List CNode)
    (h : ∀ n ∈ l, n.isSimpleRun = true) : patchCNodes v true l = [] := by
  induction l with
  | nil => rfl
  | cons hd tl ih =>
    cases hd with
    | run r =>
      simpa [patchCNodes] using ih fun n hn => h n (List.mem_cons_of_mem _ hn)
    | para p => exact absurd (h _ (List.mem_cons_self _ _)) (by simp [CNode.isSimpleRun])
    | other => exact absurd (h _ (List.mem_cons_self _ _)) (by simp [CNode.isSimpleRun])

theorem patchPNodes_seen_allRuns (v : String) (l : List PNode)
    (h : ∀ n ∈ l, n.isSimpleRun = true) : patchPNodes v true l = [] := by
  induction l with
  | nil => rfl
  | cons hd tl ih =>
    cases hd with
    | run r =>
      simpa [patchPNodes] using ih fun n hn => h n (List.mem_cons_of_mem _ hn)
    | other => exact absurd (h _ (List.mem_cons_self _ _)) (by simp [PNode.isSimpleRun])

theorem patchCNodes_cons_run (v : String) (r : Run) (tl : List CNode)
    (htl : ∀ n ∈ tl, n.isSimpleRun = true) :
    patchCNodes v false (.run r :: tl) = [.run (r.setText v)] := by
  simp [patchCNodes, patchCNodes_seen_allRuns v tl htl]

theorem patchPNodes_cons_run (v : String) (r : Run) (tl : List PNode)
    (htl : ∀ n ∈ tl, n.isSimpleRun = true) :
    patchPNodes v false (.run r :: tl) = [.run (r.setText v)] := by
  simp [patchPNodes, patchPNodes_seen_allRuns v tl htl]

/-- C2 counterexample: a structured control holding one pre-existing
run with two `w:t` children.  The patcher replaces only the first
`w:t`, so re-reading the visible text after patching with `"X"` yields
`"Xb"`, not `"X"`. -/
theorem c2_counterexample :
    (Sdt.mk (Option.some (SdtContent.mk
        [CNode.run (Run.mk {} [RNode.t "a", RNode.t "b"])]))).firstRun.isSome = true ∧
    (setSdtValue (Sdt.mk (Option.some (SdtContent.mk
        [CNode.run (Run.mk {} [RNode.t "a", RNode.t "b"])]))) "X").text = "Xb" ∧
    "Xb" ≠ "X" := by
  decide

/-- C2 amended: for a structured control in one of the two supported
layouts — content holding only runs, or content holding exactly one
paragraph holding only runs — with at least one run and every run
carrying at most one text node, patching with `V` and re-reading the
visible text yields exactly `V`, and the first run's pre-existing
formatting properties (`w:rPr`: bold, italic, size, family, color) are
unchanged. -/
theorem c2_amended_roundtrip (sdt : Sdt) (c : SdtContent) (V : String)
    (hc : sdt.content = Option.some c) (hcanon : canonicalContent c = true) :
    (setSdtValue sdt V).text = V ∧
    (setSdtValue sdt V).firstRun.map Run.rPr = sdt.firstRun.map Run.rPr := by
  rw [canonicalContent] at hcanon
  simp only [Bool.or_eq_true] at hcanon
  rcases hcanon with hA | hB
  · -- Layout 1: runs directly under the content.
    simp only [Bool.and_eq_true] at hA
    obtain ⟨hne, hall⟩ := hA
    rw [List.all_eq_true] at hall
    obtain ⟨hd, tl, hchl⟩ : ∃ hd tl, c.children = hd :: tl := by
      cases h' : c.children with
      | nil => rw [h'] at hne; simp at hne
      | cons a b => exact ⟨a, b, rfl⟩
    have hhd := hall hd (by rw [hchl]; exact List.mem_cons_self _ _)
    cases hd with
    | para p => simp [CNode.isSimpleRun] at hhd
    | other => simp [CNode.isSimpleRun] at hhd
    | run r =>
      have hr : runSimple r = true := by simpa [CNode.isSimpleRun] using hhd
      have htl : ∀ n ∈ tl, CNode.isSimpleRun n = true := fun n hn =>
        hall n (by rw [hchl]; exact List.mem_cons_of_mem _ hn)
      have hrunsne : c.runs.isEmpty = false := by
        simp [SdtContent.runs, hchl, CNode.runOf]
      have hset : setSdtValue sdt V =
          Sdt.mk (Option.some (SdtContent.mk [.run (r.setText V)])) := by
        rw [setSdtValue, hc]
        simp only [hrunsne, Bool.false_eq_true, if_false]
        rw [hchl, patchCNodes_cons_run V r tl htl]
      constructor
      · rw [hset]
        simp [Sdt.text, SdtContent.text, CNode.text, concatAll,
          String.append_empty, runText_setText r V hr]
      · rw [hset]
        simp [Sdt.firstRun, hc, SdtContent.firstRun, hchl, Run.setText]
  · -- Layout 2: a single paragraph holding the runs.
    rcases hp : c.children with _ | ⟨hd, tl⟩ <;> rw [hp] at hB
    · simp at hB
    cases hd with
    | run r => simp at hB
    | other => simp at hB
    | para p =>
      cases tl with
      | cons x xs => simp at hB
      | nil =>
        obtain ⟨hne, hall⟩ : (!p.children.isEmpty) = true ∧ p.children.all PNode.isSimpleRun = true := by
          simpa [Bool.and_eq_true] using hB
        rw [List.all_eq_true] at hall
        obtain ⟨phd, ptl, hpchl⟩ : ∃ hd tl, p.children = hd :: tl := by
          cases h' : p.children with
          | nil => rw [h'] at hne; simp at hne
          | cons a b => exact ⟨a, b, rfl⟩
        have hhd := hall phd (by rw [hpchl]; exact List.mem_cons_self _ _)
        cases phd with
        | other => simp [PNode.isSimpleRun] at hhd
        | run r =>
          have hr : runSimple r = true := by simpa [PNode.isSimpleRun] using hhd
          have htl : ∀ n ∈ ptl, PNode.isSimpleRun n = true := fun n hn =>
            hall n (by rw [hpchl]; exact List.mem_cons_of_mem _ hn)
          have hrunse : c.runs.isEmpty = true := by
            simp [SdtContent.runs, hp, CNode.runOf]
          have hpruns : p.runs.isEmpty = false := by
            simp [Para.runs, hpchl, PNode.runOf]
          have hpp : patchPara V p = Para.mk [.run (r.setText V)] := by
            rw [patchPara]
            simp only [hpruns, Bool.false_eq_true, if_false]
            rw [hpchl, patchPNodes_cons_run V r ptl htl]
          have hset : setSdtValue sdt V =
              Sdt.mk (Option.some (SdtContent.mk
                [.para (Para.mk [.run (r.setText V)])])) := by
            rw [setSdtValue, hc]
            simp only [hrunse, if_true]
            rw [hp, patchFirstPara, hpp]
          constructor
          · rw [hset]
            simp [Sdt.text, SdtContent.text, CNode.text, Para.text, Para.runs,
              PNode.runOf, concatAll, String.append_empty, runText_setText r V hr]
          · rw [hset]
            simp [Sdt.firstRun, hc, SdtContent.firstRun, hp, hpchl, Para.runs,
              PNode.runOf, Run.setText]

/-- Witness for C2 amended: a direct-run control with a bold run and a
paragraph-wrapped control, each patched with `"V"`. -/
theorem c2_amended_witness :
    (setSdtValue (Sdt.mk (Option.some (SdtContent.mk
        [CNode.run (Run.mk { bold := Option.some true } [RNode.t "old"])]))) "V").text
      = "V" ∧
    (setSdtValue (Sdt.mk (Option.some (SdtContent.mk
        [CNode.run (Run.mk { bold := Option.some true } [RNode.t "old"])]))) "V").firstRun.map
        Run.rPr
      = (Sdt.mk (Option.some (SdtContent.mk
        [CNode.run (Run.mk { bold := Option.some true } [RNode.t "old"])]))).firstRun.map
        Run.rPr :=
  c2_amended_roundtrip _ _ "V" rfl (by decide)

/-- Reading any other cell after a write is unchanged. -/
theorem setCell_apply_ne (wb : Wb) (s : String) (r c : Nat) (v : CVal)
    (k : String × Nat × Nat) (h : k ≠ (s, r, c)) : setCell wb s r c v k = wb k := by
  simp [setCell, h]

theorem setCellOpt_apply_ne (wb : Wb) (s : String) (r c : Nat)
    (ov : Option CVal) (k : String × Nat × Nat) (h : k ≠ (s, r, c)) :
    setCellOpt wb s r c ov k = wb k := by
  cases ov <;> simp [setCellOpt, setCell_apply_ne, h]

/-- Actual-value writes target columns F and G only; column D is
untouched. -/
theorem actStep_col4 (sheet : String) (w : Wb)
    (e : (String × Nat) × (Option ℚ × String)) (s : String) (r : Nat) :
    actStep sheet w e (s, r, 4) = w (s, r, 4) := by
  rcases e with ⟨⟨sn, rr⟩, aq, ac⟩
  unfold actStep
  split
  · cases aq <;> by_cases hc : ac ≠ "" <;>
      simp [hc, setCell_apply_ne, Prod.ext_iff]
  · rfl

theorem actFold_col4 (am : ActMap) (sheet : String) (s : String) (r : Nat)
    (w : Wb) : (am.foldl (actStep sheet) w) (s, r, 4) = w (s, r, 4) := by
  induction am generalizing w with
  | nil => rfl
  | cons e tl ih => rw [List.foldl_cons, ih, actStep_col4]

/-- A quantity entry with a different anchor never touches the cell
`(s, r, D)`. -/
theorem qtyStep_apply_ne (sheet : String) (w : Wb) (e : (String × Nat) × ℚ)
    (s : String) (r : Nat) (hk : e.1 ≠ (s, r)) :
    qtyStep sheet w e (s, r, 4) = w (s, r, 4) := by
  unfold qtyStep
  split
  · rename_i hcond
    apply setCell_apply_ne
    intro heq
    simp only [Prod.mk.injEq] at heq
    exact hk (by
      have : e.1 = (e.1.1, e.1.2) := rfl
      rw [this, hcond.1, ← heq.1, ← heq.2.1])
  · rfl

theorem qtyFold_ne (l : QtyMap) (sheet : String) (s : String) (r : Nat)
    (h : ∀ e ∈ l, e.1 ≠ (s, r)) (w : Wb) :
    (l.foldl (qtyStep sheet) w) (s, r, 4) = w (s, r, 4) := by
  induction l generalizing w with
  | nil => rfl
  | cons e tl ih =>
    rw [List.foldl_cons, ih fun e' he' => h e' (List.mem_cons_of_mem _ he'),
      qtyStep_apply_ne sheet w e s r (h e (List.mem_cons_self _ _))]

/-- Folding the quantity map over one sheet: the anchored cell ends up
holding exactly its own entry's quantity when that entry fires, and is
untouched otherwise. -/
theorem qtyFold_mem (l : QtyMap) (sheet s : String) (r : Nat) (q : ℚ)
    (hmem : ((s, r), q) ∈ l) (hnd : (l.map Prod.fst).Nodup) (w : Wb) :
    (l.foldl (qtyStep sheet) w) (s, r, 4)
      = if s = sheet ∧ 0 < q then Option.some (.num q) else w (s, r, 4) := by
  induction l generalizing w with
  | nil => cases hmem
  | cons e tl ih =>
    simp only [List.map_cons, List.nodup_cons] at hnd
    rw [List.foldl_cons]
    rcases List.mem_cons.mp hmem with heq | htl
    · subst heq
      have hnotin : ∀ e' ∈ tl, e'.1 ≠ (s, r) := by
        intro e' he' hcontra
        have hm : e'.1 ∈ tl.map Prod.fst := List.mem_map_of_mem Prod.fst he'
        rw [hcontra] at hm
        exact hnd.1 hm
      rw [qtyFold_ne tl sheet s r hnotin]
      unfold qtyStep
      split
      · rename_i hcond
        obtain ⟨h1, -⟩ := hcond
        subst h1
        simp [setCell]
      · rfl
    · have hne : e.1 ≠ (s, r) := by
        intro hcontra
        have hm : ((s, r), q).1 ∈ tl.map Prod.fst := List.mem_map_of_mem Prod.fst htl
        rw [← hcontra] at hm
        exact hnd.1 hm
      rw [ih htl hnd.2, qtyStep_apply_ne sheet w e s r hne]

/-- Evaluating one sheet pass at the anchored quantity cell. -/
theorem fillSheet_at (qm : QtyMap) (am : ActMap) (proj : BoqProject)
    (sheet s : String) (r : Nat) (q : ℚ)
    (hmem : ((s, r), q) ∈ qm) (hnd : (qm.map Prod.fst).Nodup) (w : Wb) :
    fillSheet qm am proj sheet w (s, r, 4)
      = if s = sheet ∧ 0 < q then Option.some (.num q) else w (s, r, 4) := by
  unfold fillSheet
  rw [actFold_col4, qtyFold_mem qm sheet s r q hmem hnd]
  by_cases hcond : s = sheet ∧ 0 < q
  · rw [if_pos hcond, if_pos hcond]
  · rw [if_neg hcond, if_neg hcond,
      setCellOpt_apply_ne _ _ _ _ _ _ (by simp [Prod.ext_iff]),
      setCellOpt_apply_ne _ _ _ _ _ _ (by simp [Prod.ext_iff])]

/-- The anchored value, once written, survives every later sheet
pass. -/
theorem exportBoq_keeps (qm : QtyMap) (am : ActMap) (proj : BoqProject)
    (names : List String) (s : String) (r : Nat) (q : ℚ)
    (hmem : ((s, r), q) ∈ qm) (hnd : (qm.map Prod.fst).Nodup) (w : Wb)
    (hw : w (s, r, 4) = Option.some (.num q)) :
    exportBoqWb names qm am proj w (s, r, 4) = Option.some (.num q) := by
  induction names generalizing w with
  | nil => exact hw
  | cons n tl ih =>
    unfold exportBoqWb at ih ⊢
    rw [List.foldl_cons]
    apply ih
    unfold sheetStep
    split
    · rw [fillSheet_at qm am proj n s r q hmem hnd w]
      by_cases hcond : s = n ∧ 0 < q
      · rw [if_pos hcond]
      · rw [if_neg hcond]; exact hw
    · exact hw

/-- C4: the spreadsheet anchor writer never writes the quantity cell
of an anchor whose quantity is not positive (the produced workbook
still holds the template's value there); and for an anchor on an
allowed sheet of the workbook with positive quantity `q`, re-reading
the quantity column D at the anchored row yields exactly `q`. -/
theorem c4_anchor_writer_roundtrip (qm : QtyMap) (am : ActMap) (proj : BoqProject)
    (names : List String) (wb0 : Wb) (s : String) (r : Nat) (q : ℚ)
    (hmem : ((s, r), q) ∈ qm) (hnd : (qm.map Prod.fst).Nodup) :
    (q ≤ 0 → exportBoqWb names qm am proj wb0 (s, r, 4) = wb0 (s, r, 4)) ∧
    (0 < q → s ∈ DATA_SHEETS → s ∈ names →
      exportBoqWb names qm am proj wb0 (s, r, 4) = Option.some (.num q)) := by
  constructor
  · intro hq
    induction names generalizing wb0 with
    | nil => rfl
    | cons n tl ih =>
      unfold exportBoqWb at ih ⊢
      rw [List.foldl_cons]
      rw [ih (sheetStep qm am proj wb0 n)]
      unfold sheetStep
      split
      · rw [fillSheet_at qm am proj n s r q hmem hnd wb0,
          if_neg fun hcond => absurd hq (not_le.mpr hcond.2)]
      · rfl
  · intro hq hdata hmemn
    induction names generalizing wb0 with
    | nil => cases hmemn
    | cons n tl ih =>
      unfold exportBoqWb at ih ⊢
      rw [List.foldl_cons]
      rcases List.mem_cons.mp hmemn with heq | htl

      · subst heq
        apply exportBoq_keeps qm am proj tl s r q hmem hnd
        unfold sheetStep
        rw [if_pos hdata, fillSheet_at qm am proj s s r q hmem hnd wb0,
          if_pos ⟨rfl, hq⟩]
      · exact ih _ htl


/-- Witness for C4: a two-anchor map on sheet `BoQ`; the positive
quantity is read back, the non-positive one leaves the empty template
cell empty. -/
theorem c4_witness :
    (exportBoqWb ["Intro", "BoQ"] [(("BoQ", 10), 5), (("BoQ", 11), 0)] []
        { siteId := Option.some "S7" } (fun _ => Option.none) ("BoQ", 11, 4)
      = (fun _ => (Option.none : Option CVal)) ("BoQ", 11, 4)) ∧
    exportBoqWb ["Intro", "BoQ"] [(("BoQ", 10), 5), (("BoQ", 11), 0)] []
        { siteId := Option.some "S7" } (fun _ => Option.none) ("BoQ", 10, 4)
      = Option.some (.num 5) :=
  ⟨(c4_anchor_writer_roundtrip [(("BoQ", 10), 5), (("BoQ", 11), 0)] []
      { siteId := Option.some "S7" } ["Intro", "BoQ"] (fun _ => Option.none)
      "BoQ" 11 0 (by decide) (by decide)).1 (by norm_num),
   (c4_anchor_writer_roundtrip [(("BoQ", 10), 5), (("BoQ", 11), 0)] []
      { siteId := Option.some "S7" } ["Intro", "BoQ"] (fun _ => Option.none)
      "BoQ" 10 5 (by decide) (by decide)).2 (by norm_num) (by decide) (by decide)⟩

/-- Pictures emitted while processing one photo are pictures of that
photo. -/
theorem processPhoto_pics (p : Photo) (xs : List DocItem)
    (h : processPhoto p = .ok xs) (q : Photo) (b : Bool)
    (hq : DocItem.picture q b ∈ xs) : q = p := by
  unfold processPhoto at h
  split_ifs at h <;>
    first
      | exact Except.noConfusion h
      | (simp only [Except.ok.injEq] at h; subst h; simp at hq; try tauto)

/-- Pictures emitted while processing a photo list are pictures of its
members. -/
theorem processPhotos_pics (l : List Photo) (xs : List DocItem)
    (h : processPhotos l = .ok xs) (q : Photo) (b : Bool)
    (hq : DocItem.picture q b ∈ xs) : q ∈ l := by
  induction l generalizing xs with
  | nil =>
    simp only [processPhotos, Except.ok.injEq] at h
    subst h
    cases hq
  | cons p tl ih =>
    unfold processPhotos at h
    cases h1 : processPhoto p with
    | error e => rw [h1] at h; simp [Bind.bind, Except.bind] at h
    | ok xs1 =>
      cases h2 : processPhotos tl with
      | error e => rw [h1, h2] at h; simp [Bind.bind, Except.bind] at h
      | ok ys =>
        rw [h1, h2] at h
        simp only [Bind.bind, Except.bind, Except.ok.injEq] at h
        subst h
        rcases List.mem_append.mp hq with h3 | h3
        · rw [processPhoto_pics p xs1 h1 q b h3]
          exact List.mem_cons_self _ _
        · exact List.mem_cons_of_mem _ (ih ys h2 h3)

/-- Pictures emitted by one section block belong to that section. -/
theorem processSection_pics (photos : List Photo) (k : String) (xs : List DocItem)
    (h : processSection photos k = .ok xs) (q : Photo) (b : Bool)
    (hq : DocItem.picture q b ∈ xs) : normSection q = k := by
  unfold processSection at h
  split_ifs at h with hemp
  · simp only [Except.ok.injEq] at h
    subst h
    cases hq
  · cases h1 : processPhotos (photos.filter fun p => normSection p = k) with
    | error e => rw [h1] at h; simp [Bind.bind, Except.bind] at h
    | ok zs =>
      rw [h1] at h
      simp only [Bind.bind, Except.bind, Except.ok.injEq] at h
      subst h
      rcases List.mem_cons.mp hq with h3 | h3
      · cases h3
      · have hmem := processPhotos_pics _ zs h1 q b h3
        exact of_decide_eq_true (List.mem_filter.mp hmem).2

/-- Pictures emitted by a run of section blocks belong to one of the
sections of the run. -/
theorem processAllSections_pics (photos : List Photo) (ks : List String)
    (xs : List DocItem) (h : processAllSections photos ks = .ok xs)
    (q : Photo) (b : Bool) (hq : DocItem.picture q b ∈ xs) :
    normSection q ∈ ks := by
  induction ks generalizing xs with
  | nil =>
    simp only [processAllSections, Except.ok.injEq] at h
    subst h
    cases hq
  | cons k tl ih =>
    unfold processAllSections at h
    cases h1 : processSection photos k with
    | error e => rw [h1] at h; simp [Bind.bind, Except.bind] at h
    | ok xs1 =>
      cases h2 : processAllSections photos tl with
      | error e => rw [h1, h2] at h; simp [Bind.bind, Except.bind] at h
      | ok ys =>
        rw [h1, h2] at h
        simp only [Bind.bind, Except.bind, Except.ok.injEq] at h
        subst h
        rcases List.mem_append.mp hq with h3 | h3
        · rw [processSection_pics photos k xs1 h1 q b h3]
          exact List.mem_cons_self _ _
        · exact List.mem_cons_of_mem _ (ih ys h2 h3)

/-- Section runs compose along list append. -/
theorem processAllSections_append (photos : List Photo) (ks1 ks2 : List String) :
    processAllSections photos (ks1 ++ ks2)
      = (do
          let xs ← processAllSections photos ks1
          let ys ← processAllSections photos ks2
          Except.ok (xs ++ ys)) := by
  induction ks1 with
  | nil =>
    cases h : processAllSections photos ks2 <;>
      simp [processAllSections, Bind.bind, Except.bind, h]
  | cons k tl ih =>
    show processAllSections photos (k :: (tl ++ ks2)) = _
    simp only [processAllSections]
    rw [ih]
    cases h1 : processSection photos k <;>
      cases h2 : processAllSections photos tl <;>
        cases h3 : processAllSections photos ks2 <;>
          simp [Bind.bind, Except.bind, h1, h2, h3, List.append_assoc]

/-- In a list split as `A ++ B` where no element of `A` satisfies `Q`
and no element of `B` satisfies `P`, every index satisfying `P`
precedes every index satisfying `Q`. -/
theorem index_lt_of_split {α : Type} (A B L : List α) (hL : L = A ++ B)
    (P Q : α → Prop) (hA : ∀ x ∈ A, ¬ Q x) (hB : ∀ x ∈ B, ¬ P x)
    (i j : Nat) (hi : i < L.length) (hj : j < L.length)
    (hPi : P (L.get ⟨i, hi⟩)) (hQj : Q (L.get ⟨j, hj⟩)) : i < j := by
  subst hL
  have hiA : i < A.length := by
    by_contra hcon
    push_neg at hcon
    have hib : i - A.length < B.length := by
      rw [List.length_append] at hi; omega
    have : (A ++ B).get ⟨i, hi⟩ = B.get ⟨i - A.length, hib⟩ := by
      simp [List.getElem_append_right hcon]
    exact hB _ (List.get_mem B _ _) (this ▸ hPi)
  have hjB : A.length ≤ j := by
    by_contra hcon
    push_neg at hcon
    have : (A ++ B).get ⟨j, hj⟩ = A.get ⟨j, hcon⟩ := by
      simp [List.getElem_append_left hcon]
    exact hA _ (List.get_mem A _ _) (this ▸ hQj)
  omega

/-- C6: in a successfully produced photo appendix, every picture of a
photo in section `site_overview` appears in the document before every
picture of a photo in section `other`, whatever the input order. -/
theorem c6_section_order (photos : List Photo) (items : List DocItem)
    (hok : insertPhotosIntoDoc photos = .ok items)
    (i j : Nat) (hi : i < items.length) (hj : j < items.length)
    (p q : Photo) (bi bj : Bool)
    (hpi : items.get ⟨i, hi⟩ = DocItem.picture p bi)
    (hsp : normSection p = "site_overview")
    (hqj : items.get ⟨j, hj⟩ = DocItem.picture q bj)
    (hsq : normSection q = "other") : i < j := by
  unfold insertPhotosIntoDoc at hok
  cases hall : processAllSections photos PHOTO_SECTION_ORDER with
  | error e => rw [hall] at hok; simp [Bind.bind, Except.bind] at hok
  | ok xs =>
    rw [hall] at hok
    simp only [Bind.bind, Except.bind, Except.ok.injEq] at hok
    have horder : PHOTO_SECTION_ORDER
        = ["site_overview", "delivery_access", "hse_illustration", "cable_route",
           "power_diagram", "radio_plan_screenshot", "effekt_screenshot",
           "antenna_azimuth", "antenna_placement", "equipment_room", "site_plan",
           "structural_calc", "building_photos", "detail_photos"] ++ ["other"] := rfl
    rw [horder, processAllSections_append] at hall
    cases h1 : processAllSections photos
        ["site_overview", "delivery_access", "hse_illustration", "cable_route",
         "power_diagram", "radio_plan_screenshot", "effekt_screenshot",
         "antenna_azimuth", "antenna_placement", "equipment_room", "site_plan",
         "structural_calc", "building_photos", "detail_photos"] with
    | error e => rw [h1] at hall; simp [Bind.bind, Except.bind] at hall
    | ok A =>
      cases h2 : processAllSections photos ["other"] with
      | error e => rw [h1, h2] at hall; simp [Bind.bind, Except.bind] at hall
      | ok B =>
        rw [h1, h2] at hall
        simp only [Bind.bind, Except.bind, Except.ok.injEq] at hall
        subst hall
        refine index_lt_of_split
          (DocItem.pageBreak :: DocItem.heading 1 "Photo Documentation" :: A) B
          items (by rw [← hok]; rfl)
          (fun x => ∃ r b, x = DocItem.picture r b ∧ normSection r = "site_overview")
          (fun x => ∃ r b, x = DocItem.picture r b ∧ normSection r = "other")
          ?_ ?_ i j hi hj ⟨p, bi, hpi, hsp⟩ ⟨q, bj, hqj, hsq⟩
        · rintro x hx ⟨r, b, rfl, hr⟩
          rcases List.mem_cons.mp hx with h' | hx'
          · cases h'
          rcases List.mem_cons.mp hx' with h' | hx''
          · cases h'
          have := processAllSections_pics photos _ A h1 r b hx''
          have hni : ∀ k ∈ ["site_overview", "delivery_access", "hse_illustration",
              "cable_route", "power_diagram", "radio_plan_screenshot",
              "effekt_screenshot", "antenna_azimuth", "antenna_placement",
              "equipment_room", "site_plan", "structural_calc", "building_photos",
              "detail_photos"], k ≠ "other" := by decide
          exact hni _ this hr
        · rintro x hx ⟨r, b, rfl, hr⟩
          have := processAllSections_pics photos _ B h2 r b hx
          simp only [List.mem_singleton] at this
          rw [this] at hr
          exact absurd hr (by decide)

/-- Witness for C6: photos supplied in the order `other`,
`site_overview`; the rendered appendix still places the
`site_overview` picture (index 3) before the `other` picture
(index 6). -/
theorem c6_witness :
    insertPhotosIntoDoc
        [{ name := "o", sectionField := "other" },
         { name := "s", sectionField := "site_overview" }]
      = Except.ok
        [DocItem.pageBreak, DocItem.heading 1 "Photo Documentation",
         DocItem.heading 2 "§1 — Site Overview",
         DocItem.picture { name := "s", sectionField := "site_overview" } false,
         DocItem.caption "",
         DocItem.heading 2 "Other Photos",
         DocItem.picture { name := "o", sectionField := "other" } false,
         DocItem.caption ""] ∧
    (3 : Nat) < 6 := by
  refine ⟨by rfl, ?_⟩
  exact c6_section_order
    [{ name := "o", sectionField := "other" },
     { name := "s", sectionField := "site_overview" }]
    [DocItem.pageBreak, DocItem.heading 1 "Photo Documentation",
     DocItem.heading 2 "§1 — Site Overview",
     DocItem.picture { name := "s", sectionField := "site_overview" } false,
     DocItem.caption "",
     DocItem.heading 2 "Other Photos",
     DocItem.picture { name := "o", sectionField := "other" } false,
     DocItem.caption ""]
    (by rfl) 3 6 (by decide) (by decide)
    { name := "s", sectionField := "site_overview" }
    { name := "o", sectionField := "other" } false false
    (by decide) (by decide) (by decide) (by decide)

end SiteForge
